import Mathlib

/-!
# Verification of the bar-osc parameter mappers and calibration sweeps

Shallow embedding of `src/bar_osc.py` over exact real arithmetic.

Modelling conventions:
* Python `math.log2`, `math.log10`, `math.log` raise `ValueError`
  ("math domain error") on non-positive inputs; a raising function is
  embedded as `Except Unit _`, `.error ()` standing for the raised
  `ValueError`.
* Python `round(x)` / `round(x, n)` is modelled with Mathlib's `round`
  (`round(x, n)` as `round (x * 10^n) / 10^n`).  Python rounds exact
  half-ties to even while `round` rounds half up; the two agree away
  from exact ties, and no property below depends on a tie.
* Python f-string rendering of a float is abstracted as a parameter
  `showR : ℝ → String`; the sentinel branches of `amp_title_format`
  never consult it.
-/

namespace BarOsc

/-- Python `math.log2 x`: raises `ValueError` for `x ≤ 0`. -/
noncomputable def mathLog2 (x : ℝ) : Except Unit ℝ :=
  if x ≤ 0 then .error () else .ok (Real.logb 2 x)

/-- Python `math.log10 x`: raises `ValueError` for `x ≤ 0`. -/
noncomputable def mathLog10 (x : ℝ) : Except Unit ℝ :=
  if x ≤ 0 then .error () else .ok (Real.logb 10 x)

/-- Python `math.log x` (natural log): raises `ValueError` for `x ≤ 0`. -/
noncomputable def mathLog (x : ℝ) : Except Unit ℝ :=
  if x ≤ 0 then .error () else .ok (Real.log x)

/-- Python `round(x, 1)`. -/
noncomputable def round1 (x : ℝ) : ℝ := (round (x * 10) : ℤ) / 10

/-- Python `round(x, 3)`. -/
noncomputable def round3 (x : ℝ) : ℝ := (round (x * 1000) : ℤ) / 1000

/-- `src/bar_osc.py` lines 34-40: `slider_to_freq(value)` is
`round(math.pow(2, value * 1e-4))`.  `math.pow(2, y)` is total on the
reals, so no `Except` wrapper is needed. -/
noncomputable def slider_to_freq (value : ℝ) : ℤ :=
  round ((2 : ℝ) ^ (value * 1e-4))

/-- `src/bar_osc.py` lines 42-48: `freq_to_slider(freq)` is
`math.log2(freq) * 1e4`; the uncaught `ValueError` of `math.log2` on
`freq ≤ 0` propagates. -/
noncomputable def freq_to_slider (freq : ℝ) : Except Unit ℝ :=
  (mathLog2 freq).map (fun l => l * 1e4)

/-- Rendering of a one-decimal float value given as an integer number of
tenths, as Python prints it (`150` ↦ `"15.0"`, `101` ↦ `"10.1"`). -/
def renderTenths (n : ℤ) : String :=
  (if n < 0 then "-" else "") ++ toString (n.natAbs / 10) ++ "." ++ toString (n.natAbs % 10)

/-- `src/bar_osc.py` lines 50-60: `freq_title_format(freq)`.  The spec
types `freq` as an integer.  The kHz branch computes
`round(freq * 1e-3, 1)` — held here as an exact count of tenths,
`round (freq / 100)` — and prints it as a one-decimal float. -/
def freq_title_format (freq : ℤ) : String :=
  if freq < 10000 then "Frequency: " ++ toString freq ++ " Hz"
  else "Frequency: " ++ renderTenths (round ((freq : ℚ) / 100)) ++ " kHz"

/-- `src/bar_osc.py` lines 62-80 (deprecated legacy curve; the
`@deprecated` wrapper only emits a warning and returns the wrapped
value unchanged): `amp = round(1e-3 * math.exp(6.908 * value), 3)`,
then `amp *= value * 10` when `value < 0.001`. -/
noncomputable def slider_to_amp (value : ℝ) : ℝ :=
  let amp := round3 (1e-3 * Real.exp (6.908 * value))
  if value < 0.001 then amp * (value * 10) else amp

/-- `src/bar_osc.py` lines 82-89 (deprecated legacy inverse):
`math.log(amp / 1e-3) / 6.908`, the `ValueError` of `math.log`
propagating for `amp ≤ 0`. -/
noncomputable def amp_to_slider (amp : ℝ) : Except Unit ℝ :=
  (mathLog (amp / 1e-3)).map (fun l => l / 6.908)

/-- `src/bar_osc.py` lines 91-102: `amp_title_format(amp)`.
`try: dBFS = round(20 * math.log10(amp), 1) except ValueError: dBFS = "-∞"`,
then the literal `"-0.0"` replaces a `dBFS` comparing equal to `0.0`
(both `0.0` and `-0.0` do; the string `"-∞"` does not), and the result
is `f"Volume: {dBFS} dBFS"`. -/
noncomputable def amp_title_format (showR : ℝ → String) (amp : ℝ) : String :=
  match (mathLog10 amp).map (fun l => round1 (20 * l)) with
  | .error _ => "Volume: -∞ dBFS"
  | .ok dBFS =>
      if dBFS = 0 then "Volume: -0.0 dBFS"
      else "Volume: " ++ showR dBFS ++ " dBFS"

/-- The legacy amplitude curve exactly as the spec words it: the rounded
exponential, multiplied by the roll-off factor `value * 10` when
`value < 0.001`. -/
noncomputable def slider_to_amp_spec (value : ℝ) : ℝ :=
  if value < 0.001 then round3 (1e-3 * Real.exp (6.908 * value)) * (value * 10)
  else round3 (1e-3 * Real.exp (6.908 * value))

/-! ## Oscillator and calibration sweeps

`bar_osc.py` imports `Oscillator` from `oscillator.py`, which is not in
`src/`; its behaviour is modelled from the spec (§3 OscillatorState,
§4.3 Oscillator state machine). -/

/-- Modelled from the spec: the `Oscillator` object of the missing
`oscillator.py` — `wave_type` (the code passes the strings
`"sine_wave"`, `"square_wave"`, `"white_noise"`, `"pink_noise"`),
`amplitude`, `frequency`, and the stream handle, `streaming = false`
standing for `stream is None`. -/
@[ext]
structure Oscillator where
  wave_type : String
  amplitude : ℝ
  frequency : ℝ
  streaming : Bool

/-- Modelled from the spec: `Oscillator.play` allocates the stream
handle and starts audio (§4.3 `start()`). -/
def Oscillator.play (s : Oscillator) : Oscillator := { s with streaming := true }

/-- Modelled from the spec: `Oscillator.stop` releases the stream
handle (§4.3 `stop()`). -/
def Oscillator.stop (s : Oscillator) : Oscillator := { s with streaming := false }

/-- Observable audio events of a sweep: `play f` is `osc.play()` with
current frequency `f` (held one second before the matching `stop`),
`stop` is `osc.stop()`. -/
inductive Event where
  | play : ℝ → Event
  | stop : Event

/-- The play/stop event trace of a list of visited frequencies: each
frequency is played, held, then stopped. -/
def playStops : List ℝ → List Event
  | [] => []
  | f :: fs => Event.play f :: Event.stop :: playStops fs

/-- The `while self.osc.frequency <= limit:` loop shared by
`octave_walk` (`mul = 2`) and `octave_walk_thirds` (`mul = 2^(1/3)`),
`src/bar_osc.py` lines 291-296 and 317-322.  Each iteration plays the
current frequency, stops, and multiplies the frequency by `mul`.
`fuel` bounds the iteration count of the embedding; `none` means the
fuel ran out before the guard failed (`walkLoop_fuel_mono` shows a
`some` result is the loop's unique terminal behaviour). -/
noncomputable def walkLoop (mul limit : ℝ) : ℕ → Oscillator → Option (Oscillator × List Event)
  | 0, s => if s.frequency ≤ limit then none else some (s, [])
  | n + 1, s =>
      if s.frequency ≤ limit then
        (walkLoop mul limit n { s.play.stop with frequency := s.frequency * mul }).map
          (fun r => (r.1, Event.play s.frequency :: Event.stop :: r.2))
      else some (s, [])

/-- `src/bar_osc.py` lines 275-299: `octave_walk` (the `sender`
argument is unused by the model; `stop_osc` reduces to `osc.stop()`
since the menu state is out of scope).  Stops the oscillator if its
stream is live, remembers wave type and frequency, forces
`sine_wave` at `27.5` Hz, runs the loop with multiplier `2` and limit
`1760`, and restores the remembered wave type and frequency.  Returns
the final oscillator and the emitted event trace. -/
noncomputable def octave_walk (fuel : ℕ) (s : Oscillator) : Option (Oscillator × List Event) :=
  let pre : Oscillator × List Event := if s.streaming then (s.stop, [Event.stop]) else (s, [])
  let retain_wave := pre.1.wave_type
  let retain_freq := pre.1.frequency
  let s2 := { pre.1 with wave_type := "sine_wave", frequency := (27.5 : ℝ) }
  (walkLoop 2 1760 fuel s2).map
    (fun r => ({ r.1 with wave_type := retain_wave, frequency := retain_freq }, pre.2 ++ r.2))

/-- `src/bar_osc.py` lines 301-325: `octave_walk_thirds`, identical to
`octave_walk` except the per-step multiplier is `2 ** (1/3)`. -/
noncomputable def octave_walk_thirds (fuel : ℕ) (s : Oscillator) : Option (Oscillator × List Event) :=
  let pre : Oscillator × List Event := if s.streaming then (s.stop, [Event.stop]) else (s, [])
  let retain_wave := pre.1.wave_type
  let retain_freq := pre.1.frequency
  let s2 := { pre.1 with wave_type := "sine_wave", frequency := (27.5 : ℝ) }
  (walkLoop ((2 : ℝ) ^ ((1 : ℝ) / 3)) 1760 fuel s2).map
    (fun r => ({ r.1 with wave_type := retain_wave, frequency := retain_freq }, pre.2 ++ r.2))

/-! ## Loop lemmas -/

/-- One-step unfolding of `walkLoop` at fuel `0`. -/
theorem walkLoop_zero (mul limit : ℝ) (s : Oscillator) :
    walkLoop mul limit 0 s = if s.frequency ≤ limit then none else some (s, []) := by
  rw [walkLoop]

/-- One-step unfolding of `walkLoop` at successor fuel.  The body state
update is written with the explicit constructor (definitionally equal
to the record update of the definition). -/
theorem walkLoop_succ (mul limit : ℝ) (n : ℕ) (s : Oscillator) :
    walkLoop mul limit (n + 1) s =
      if s.frequency ≤ limit then
        (walkLoop mul limit n
            ⟨s.wave_type, s.amplitude, s.frequency * mul, false⟩).map
          (fun r => (r.1, Event.play s.frequency :: Event.stop :: r.2))
      else some (s, []) := by
  rw [walkLoop]
  rfl

/-- A `some` result of `walkLoop` is stable under one more unit of fuel:
once the guard has failed, extra fuel does not change the outcome. -/
theorem walkLoop_succ_of_some {mul limit : ℝ} {n : ℕ} {s : Oscillator}
    {r : Oscillator × List Event} (h : walkLoop mul limit n s = some r) :
    walkLoop mul limit (n + 1) s = some r := by
  induction n generalizing s r with
  | zero =>
      rw [walkLoop_zero] at h
      rw [walkLoop_succ]
      by_cases hg : s.frequency ≤ limit
      · simp [hg] at h
      · simpa [hg] using h
  | succ n ih =>
      rw [walkLoop_succ] at h
      rw [walkLoop_succ]
      by_cases hg : s.frequency ≤ limit
      · rw [if_pos hg] at h ⊢
        rcases Option.map_eq_some'.mp h with ⟨a, ha, hfa⟩
        rw [ih ha]
        simp [hfa]
      · simpa [hg] using h

/-- A `some` result of `walkLoop` is the loop's terminal behaviour:
it is unchanged by any amount of additional fuel. -/
theorem walkLoop_fuel_mono {mul limit : ℝ} {n m : ℕ} {s : Oscillator}
    {r : Oscillator × List Event} (hnm : n ≤ m)
    (h : walkLoop mul limit n s = some r) :
    walkLoop mul limit m s = some r := by
  induction hnm with
  | refl => exact h
  | step _ ih => exact walkLoop_succ_of_some ih

/-- Characterisation of a full run: if the first `K ≥ 1` geometric
frequencies fit under the limit and the `K`-th does not, the loop
terminates within `K + 1` units of fuel, plays exactly those `K`
frequencies, leaves the stream released, the frequency multiplied `K`
times, and wave type and amplitude untouched. -/
theorem walkLoop_run (mul limit : ℝ) :
    ∀ K : ℕ, K ≠ 0 → ∀ s : Oscillator,
      (∀ k, k < K → s.frequency * mul ^ k ≤ limit) →
      limit < s.frequency * mul ^ K →
      walkLoop mul limit (K + 1) s =
        some (⟨s.wave_type, s.amplitude, s.frequency * mul ^ K, false⟩,
          playStops ((List.range K).map (fun k => s.frequency * mul ^ k))) := by
  intro K
  induction K with
  | zero => intro h; exact absurd rfl h
  | succ K ih =>
      intro _ s hle hgt
      have hg : s.frequency ≤ limit := by simpa using hle 0 (Nat.succ_pos K)
      rw [walkLoop_succ, if_pos hg]
      by_cases hK0 : K = 0
      · subst hK0
        have hg1 : ¬ s.frequency * mul ≤ limit := by
          rw [pow_one] at hgt
          exact not_le.mpr hgt
        rw [walkLoop_succ]
        simp [hg1, playStops, List.range_succ]
      · have hle' : ∀ k, k < K →
            (⟨s.wave_type, s.amplitude, s.frequency * mul, false⟩ : Oscillator).frequency
              * mul ^ k ≤ limit := by
          intro k hk
          have h1 := hle (k + 1) (by omega)
          calc s.frequency * mul * mul ^ k = s.frequency * mul ^ (k + 1) := by ring
            _ ≤ limit := h1
        have hgt' : limit <
            (⟨s.wave_type, s.amplitude, s.frequency * mul, false⟩ : Oscillator).frequency
              * mul ^ K := by
          calc limit < s.frequency * mul ^ (K + 1) := hgt
            _ = s.frequency * mul * mul ^ K := by ring
        have hrec := ih hK0 ⟨s.wave_type, s.amplitude, s.frequency * mul, false⟩ hle' hgt'
        rw [hrec]
        simp only [Option.map_some']
        refine congrArg some (Prod.ext ?_ ?_)
        · ext <;> simp
          ring_nf
        · show Event.play s.frequency :: Event.stop ::
              playStops ((List.range K).map fun k =>
                (⟨s.wave_type, s.amplitude, s.frequency * mul, false⟩ : Oscillator).frequency
                  * mul ^ k) = _
          rw [List.range_succ_eq_map, List.map_cons, List.map_map]
          have hfun : ((fun k : ℕ => s.frequency * mul ^ k) ∘ Nat.succ)
              = fun k : ℕ =>
                (⟨s.wave_type, s.amplitude, s.frequency * mul, false⟩ : Oscillator).frequency
                  * mul ^ k := by
            funext k
            show s.frequency * mul ^ (k + 1) = s.frequency * mul * mul ^ k
            ring
          rw [hfun]
          simp [playStops]

/-! ## Sweep runs -/

/-- The seven frequencies visited by the octave-walk loop. -/
theorem octave_list :
    (List.range 7).map (fun k => (27.5 : ℝ) * 2 ^ k)
      = [27.5, 55, 110, 220, 440, 880, 1760] := by
  have h7 : List.range 7 = [0, 1, 2, 3, 4, 5, 6] := rfl
  rw [h7]
  simp only [List.map_cons, List.map_nil]
  norm_num

/-- Full run of the octave-walk loop from `27.5` Hz: seven plays, then
the guard fails at `27.5 * 2 ^ 7 = 3520`. -/
theorem walkLoop_octave (n : ℕ) (hn : 8 ≤ n) (wt : String) (amp : ℝ) (b : Bool) :
    walkLoop 2 1760 n ⟨wt, amp, 27.5, b⟩ =
      some (⟨wt, amp, 27.5 * 2 ^ 7, false⟩,
        playStops [27.5, 55, 110, 220, 440, 880, 1760]) := by
  have hle : ∀ k, k < 7 →
      ((⟨wt, amp, 27.5, b⟩ : Oscillator).frequency) * (2 : ℝ) ^ k ≤ 1760 := by
    intro k hk
    show (27.5 : ℝ) * 2 ^ k ≤ 1760
    interval_cases k <;> norm_num
  have hgt : (1760 : ℝ) < ((⟨wt, amp, 27.5, b⟩ : Oscillator).frequency) * (2 : ℝ) ^ 7 := by
    show (1760 : ℝ) < 27.5 * 2 ^ 7
    norm_num
  have h := walkLoop_run 2 1760 7 (by norm_num) ⟨wt, amp, 27.5, b⟩ hle hgt
  rw [show ((⟨wt, amp, 27.5, b⟩ : Oscillator).frequency) = (27.5 : ℝ) from rfl,
    octave_list] at h
  exact walkLoop_fuel_mono hn h

/-- Powers of the thirds multiplier as real powers of two. -/
theorem thirds_pow (k : ℕ) :
    ((2 : ℝ) ^ ((1 : ℝ) / 3)) ^ k = (2 : ℝ) ^ ((k : ℝ) / 3) := by
  rw [← Real.rpow_natCast ((2 : ℝ) ^ ((1 : ℝ) / 3)) k,
    ← Real.rpow_mul (by norm_num : (0 : ℝ) ≤ 2)]
  congr 1
  ring

/-- Full run of the thirds loop from `27.5` Hz: nineteen plays, then
the guard fails at `27.5 * (2 ^ (1/3)) ^ 19 > 1760`. -/
theorem walkLoop_thirds (n : ℕ) (hn : 20 ≤ n) (wt : String) (amp : ℝ) (b : Bool) :
    walkLoop ((2 : ℝ) ^ ((1 : ℝ) / 3)) 1760 n ⟨wt, amp, 27.5, b⟩ =
      some (⟨wt, amp, 27.5 * ((2 : ℝ) ^ ((1 : ℝ) / 3)) ^ 19, false⟩,
        playStops ((List.range 19).map
          (fun k => 27.5 * ((2 : ℝ) ^ ((1 : ℝ) / 3)) ^ k))) := by
  have h64 : (2 : ℝ) ^ ((6 : ℝ)) = 64 := by
    rw [show ((6 : ℝ)) = ((6 : ℕ) : ℝ) by norm_num, Real.rpow_natCast]
    norm_num
  have hle : ∀ k, k < 19 →
      ((⟨wt, amp, 27.5, b⟩ : Oscillator).frequency)
        * ((2 : ℝ) ^ ((1 : ℝ) / 3)) ^ k ≤ 1760 := by
    intro k hk
    show (27.5 : ℝ) * ((2 : ℝ) ^ ((1 : ℝ) / 3)) ^ k ≤ 1760
    rw [thirds_pow k]
    have h1 : (2 : ℝ) ^ ((k : ℝ) / 3) ≤ 64 := by
      rw [← h64, Real.rpow_le_rpow_left_iff (by norm_num : (1 : ℝ) < 2)]
      have h2 : (k : ℝ) ≤ 18 := by exact_mod_cast Nat.le_of_lt_succ hk
      linarith
    linarith
  have hgt : (1760 : ℝ) < ((⟨wt, amp, 27.5, b⟩ : Oscillator).frequency)
      * ((2 : ℝ) ^ ((1 : ℝ) / 3)) ^ 19 := by
    show (1760 : ℝ) < 27.5 * ((2 : ℝ) ^ ((1 : ℝ) / 3)) ^ 19
    rw [thirds_pow 19]
    have h1 : (64 : ℝ) < 2 ^ (((19 : ℕ) : ℝ) / 3) := by
      rw [← h64, Real.rpow_lt_rpow_left_iff (by norm_num : (1 : ℝ) < 2)]
      norm_num
    push_cast at h1
    linarith
  have h := walkLoop_run ((2 : ℝ) ^ ((1 : ℝ) / 3)) 1760 19 (by norm_num)
    ⟨wt, amp, 27.5, b⟩ hle hgt
  rw [show ((⟨wt, amp, 27.5, b⟩ : Oscillator).frequency) = (27.5 : ℝ) from rfl] at h
  exact walkLoop_fuel_mono hn h

/-- Full behaviour of `octave_walk`: for any starting oscillator and
enough fuel, the sweep stops a live stream first, plays the seven
octave frequencies, and restores wave type and frequency, leaving
amplitude unchanged and the stream released. -/
theorem octave_walk_run (n : ℕ) (hn : 8 ≤ n) (s : Oscillator) :
    octave_walk n s =
      some (⟨s.wave_type, s.amplitude, s.frequency, false⟩,
        (if s.streaming then [Event.stop] else []) ++
          playStops [27.5, 55, 110, 220, 440, 880, 1760]) := by
  by_cases hstr : s.streaming
  · simp only [octave_walk, hstr, if_true, Oscillator.stop]
    rw [walkLoop_octave n hn]
    simp
  · have hstr' : s.streaming = false := by simpa using hstr
    simp only [octave_walk, hstr', Bool.false_eq_true, if_false]
    rw [walkLoop_octave n hn]
    simp

/-- Full behaviour of `octave_walk_thirds`: nineteen plays at
third-octave spacing, then wave type and frequency are restored. -/
theorem octave_walk_thirds_run (n : ℕ) (hn : 20 ≤ n) (s : Oscillator) :
    octave_walk_thirds n s =
      some (⟨s.wave_type, s.amplitude, s.frequency, false⟩,
        (if s.streaming then [Event.stop] else []) ++
          playStops ((List.range 19).map
            (fun k => 27.5 * ((2 : ℝ) ^ ((1 : ℝ) / 3)) ^ k))) := by
  by_cases hstr : s.streaming
  · simp only [octave_walk_thirds, hstr, if_true, Oscillator.stop]
    rw [walkLoop_thirds n hn]
    simp
  · have hstr' : s.streaming = false := by simpa using hstr
    simp only [octave_walk_thirds, hstr', Bool.false_eq_true, if_false]
    rw [walkLoop_thirds n hn]
    simp

/-! ## Formatting helpers -/

/-- For `amp ≤ 0` the `ValueError` of `math.log10` is caught and the
sentinel is rendered. -/
theorem amp_title_format_nonpos (showR : ℝ → String) (amp : ℝ) (h : amp ≤ 0) :
    amp_title_format showR amp = "Volume: -∞ dBFS" := by
  simp only [amp_title_format, mathLog10, if_pos h, Except.map]

/-- For `amp > 0` the formatted volume is the rounded dB value, with the
literal `"-0.0"` replacing a rounded value of zero. -/
theorem amp_title_format_pos (showR : ℝ → String) (amp : ℝ) (h : 0 < amp) :
    amp_title_format showR amp =
      if round1 (20 * Real.logb 10 amp) = 0 then "Volume: -0.0 dBFS"
      else "Volume: " ++ showR (round1 (20 * Real.logb 10 amp)) ++ " dBFS" := by
  have h0 : ¬ amp ≤ 0 := not_le.mpr h
  simp only [amp_title_format, mathLog10, if_neg h0, Except.map]

/-- A value within `±0.05` rounds to zero at one decimal. -/
theorem round1_eq_zero {y : ℝ} (h : |y| < 0.05) : round1 y = 0 := by
  have h1 : round (y * 10) = 0 := by
    rw [round_eq_zero_iff]
    rw [abs_lt] at h
    exact Set.mem_Ico.mpr ⟨by linarith, by linarith⟩
  simp [round1, h1]

/-! ## Claims -/

/-- Claim C1: for every starting oscillator state, `octave_walk` plays
exactly the frequencies 27.5, 55, 110, 220, 440, 880, 1760 Hz in that
order (the loop keeps going while the frequency is at most 1760 Hz,
doubling each step, hence seven play/stop steps), stops the oscillator
first if it is already streaming, and afterwards restores the wave type
and frequency that were active before the sweep while leaving the
amplitude unchanged.  Eight units of loop fuel cover the run; by
`walkLoop_fuel_mono` any larger fuel gives the same result. -/
theorem claimC1_octave_walk (s : Oscillator) (n : ℕ) (hn : 8 ≤ n) :
    octave_walk n s =
      some (⟨s.wave_type, s.amplitude, s.frequency, false⟩,
        (if s.streaming then [Event.stop] else []) ++
          playStops [27.5, 55, 110, 220, 440, 880, 1760]) :=
  octave_walk_run n hn s

/-- Witness for C1 at a concrete streaming oscillator. -/
theorem claimC1_witness :
    8 ≤ 8 ∧
      octave_walk 8 ⟨"square_wave", 0.5, 440, true⟩ =
        some (⟨"square_wave", 0.5, 440, false⟩,
          [Event.stop] ++ playStops [27.5, 55, 110, 220, 440, 880, 1760]) := by
  refine ⟨le_refl 8, ?_⟩
  have h := claimC1_octave_walk ⟨"square_wave", 0.5, 440, true⟩ 8 (le_refl 8)
  simpa using h

/-- Claim C2: for every real `f` in `[20, 20000]`,
`slider_to_freq (freq_to_slider f)` equals `round f` — in particular it
is within `±1` Hz of `round f` as the spec asks.  The composition is
exact because `2 ^ (log2 f * 1e4 * 1e-4) = f` for positive `f`. -/
theorem claimC2_round_trip (f : ℝ) (h1 : 20 ≤ f) (h2 : f ≤ 20000) :
    (freq_to_slider f).map slider_to_freq = .ok (round f) := by
  have hf : ¬ f ≤ 0 := by linarith
  simp only [freq_to_slider, mathLog2, if_neg hf, Except.map, slider_to_freq]
  have he : Real.logb 2 f * 1e4 * 1e-4 = Real.logb 2 f := by
    rw [mul_assoc]
    norm_num
  rw [he, Real.rpow_logb (by norm_num) (by norm_num) (by linarith)]

/-- Witness for C2 at `f = 440`. -/
theorem claimC2_witness :
    (20 : ℝ) ≤ 440 ∧ (440 : ℝ) ≤ 20000 ∧
      (freq_to_slider 440).map slider_to_freq = .ok (round (440 : ℝ)) :=
  ⟨by norm_num, by norm_num, claimC2_round_trip 440 (by norm_num) (by norm_num)⟩

/-- Claim C3: for every starting oscillator state,
`octave_walk_thirds` performs exactly nineteen play/stop steps, the
`k`-th playing `27.5 * (2 ^ (1/3)) ^ k` Hz — starting at 27.5 Hz with
ratio `2 ^ (1/3)` between consecutive steps — and the last visited
frequency `27.5 * (2 ^ (1/3)) ^ 18` is still at most 1760 Hz. -/
theorem claimC3_octave_walk_thirds (s : Oscillator) (n : ℕ) (hn : 20 ≤ n) :
    (octave_walk_thirds n s =
        some (⟨s.wave_type, s.amplitude, s.frequency, false⟩,
          (if s.streaming then [Event.stop] else []) ++
            playStops ((List.range 19).map
              (fun k => 27.5 * ((2 : ℝ) ^ ((1 : ℝ) / 3)) ^ k)))) ∧
      27.5 * ((2 : ℝ) ^ ((1 : ℝ) / 3)) ^ (18 : ℕ) ≤ 1760 := by
  constructor
  · exact octave_walk_thirds_run n hn s
  · rw [thirds_pow 18]
    rw [show (((18 : ℕ) : ℝ) / 3) = (((6 : ℕ) : ℝ)) by norm_num, Real.rpow_natCast]
    norm_num

/-- Witness for C3 at a concrete idle oscillator. -/
theorem claimC3_witness :
    20 ≤ 20 ∧
      (octave_walk_thirds 20 ⟨"pink_noise", 0.25, 880, false⟩ =
          some (⟨"pink_noise", 0.25, 880, false⟩,
            [] ++ playStops ((List.range 19).map
              (fun k => 27.5 * ((2 : ℝ) ^ ((1 : ℝ) / 3)) ^ k)))) ∧
        27.5 * ((2 : ℝ) ^ ((1 : ℝ) / 3)) ^ (18 : ℕ) ≤ 1760 := by
  refine ⟨le_refl 20, ?_⟩
  have h := claimC3_octave_walk_thirds ⟨"pink_noise", 0.25, 880, false⟩ 20 (le_refl 20)
  simpa using h

/-- Claim C4: for every amplitude `amp > 0`, `amp_title_format` renders
`"Volume: {dBFS} dBFS"` with `dBFS = round(20 * log10 amp, 1)`, except
that a rounded value equal to zero is rendered literally as `"-0.0"`;
in particular the value `1.0` renders as `"Volume: -0.0 dBFS"`. -/
theorem claimC4_amp_title_format (showR : ℝ → String) (amp : ℝ) (h : 0 < amp) :
    (amp_title_format showR amp =
        if round1 (20 * Real.logb 10 amp) = 0 then "Volume: -0.0 dBFS"
        else "Volume: " ++ showR (round1 (20 * Real.logb 10 amp)) ++ " dBFS") ∧
      amp_title_format showR 1 = "Volume: -0.0 dBFS" := by
  refine ⟨amp_title_format_pos showR amp h, ?_⟩
  rw [amp_title_format_pos showR 1 (by norm_num), if_pos]
  apply round1_eq_zero
  rw [Real.logb_one]
  norm_num

/-- Witness for C4 at `amp = 1`. -/
theorem claimC4_witness :
    (0 : ℝ) < 1 ∧
      ((amp_title_format (fun _ => "") 1 =
          if round1 (20 * Real.logb 10 1) = 0 then "Volume: -0.0 dBFS"
          else "Volume: " ++ (fun _ : ℝ => "") (round1 (20 * Real.logb 10 1)) ++ " dBFS") ∧
        amp_title_format (fun _ => "") 1 = "Volume: -0.0 dBFS") :=
  ⟨by norm_num, claimC4_amp_title_format (fun _ => "") 1 (by norm_num)⟩

/-- Claim C5: for every `amp ≤ 0` the math domain error of `log10` is
not propagated: `amp_title_format` returns normally with the sentinel
string `"Volume: -∞ dBFS"`. -/
theorem claimC5_math_domain_sentinel (showR : ℝ → String) (amp : ℝ) (h : amp ≤ 0) :
    amp_title_format showR amp = "Volume: -∞ dBFS" :=
  amp_title_format_nonpos showR amp h

/-- Witness for C5 at `amp = 0`. -/
theorem claimC5_witness :
    (0 : ℝ) ≤ 0 ∧ amp_title_format (fun _ => "") 0 = "Volume: -∞ dBFS" :=
  ⟨le_refl 0, claimC5_math_domain_sentinel (fun _ => "") 0 (le_refl 0)⟩

/-- Claim C6: `freq_title_format` renders integer Hz below 10000 and
kHz rounded to one decimal at or above 10000; in particular
`freq_title_format 440 = "Frequency: 440 Hz"` and
`freq_title_format 15000 = "Frequency: 15.0 kHz"`. -/
theorem claimC6_freq_title_format (freq : ℤ) :
    (freq_title_format freq =
        if freq < 10000 then "Frequency: " ++ toString freq ++ " Hz"
        else "Frequency: " ++ renderTenths (round ((freq : ℚ) / 100)) ++ " kHz") ∧
      freq_title_format 440 = "Frequency: 440 Hz" ∧
      freq_title_format 15000 = "Frequency: 15.0 kHz" := by
  refine ⟨rfl, rfl, ?_⟩
  have h15 : round (((15000 : ℤ) : ℚ) / 100) = 150 := by
    rw [show (((15000 : ℤ) : ℚ) / 100) = ((150 : ℕ) : ℚ) by norm_num]
    exact round_natCast 150
  have hlt : ¬ (15000 : ℤ) < 10000 := by norm_num
  rw [freq_title_format, if_neg hlt, h15]
  rfl

/-- Counterexample to claim C7 as stated: the input `0` lies outside
the nominal `[20, 20000]` Hz range and is neither of the listed
amplitude exceptions, yet `freq_to_slider 0` raises a math domain
error (`math.log2(0)` raises an uncaught `ValueError`) instead of
returning normally. -/
theorem claimC7_counterexample : freq_to_slider 0 = .error () := by
  simp [freq_to_slider, mathLog2, Except.map]

/-- Claim C7 as amended: `slider_to_freq` is well-defined and returns
for every real control value, and `amp_title_format` returns normally
for every amplitude, `amp ≤ 0` producing the `-∞` sentinel; but
`freq_to_slider` returns normally exactly for `freq > 0` — every
`freq ≤ 0` raises a math domain error and must be rejected before
reaching the function. -/
theorem claimC7_amended (showR : ℝ → String) (v f amp : ℝ) (hamp : amp ≤ 0) :
    (∃ n : ℤ, slider_to_freq v = n) ∧
      ((∃ y, freq_to_slider f = .ok y) ↔ 0 < f) ∧
      amp_title_format showR amp = "Volume: -∞ dBFS" := by
  refine ⟨⟨slider_to_freq v, rfl⟩, ?_, amp_title_format_nonpos showR amp hamp⟩
  constructor
  · rintro ⟨y, hy⟩
    by_contra hf
    have hf0 : f ≤ 0 := le_of_not_lt hf
    simp [freq_to_slider, mathLog2, if_pos hf0, Except.map] at hy
  · intro hf
    have hf0 : ¬ f ≤ 0 := not_le.mpr hf
    exact ⟨Real.logb 2 f * 1e4, by simp [freq_to_slider, mathLog2, if_neg hf0, Except.map]⟩

/-- Witness for the amended C7 at concrete inputs. -/
theorem claimC7_witness :
    (-1 : ℝ) ≤ 0 ∧
      ((∃ n : ℤ, slider_to_freq 123 = n) ∧
        ((∃ y, freq_to_slider 4 = .ok y) ↔ (0 : ℝ) < 4) ∧
        amp_title_format (fun _ => "") (-1) = "Volume: -∞ dBFS") :=
  ⟨by norm_num, claimC7_amended (fun _ => "") 123 4 (-1) (by norm_num)⟩

/-- Claim C8: the legacy amplitude curve rounds
`1e-3 * exp (6.908 * value)` to three decimals and applies the
roll-off factor `value * 10` when `value < 0.001`, and its inverse is
`log (amp / 1e-3) / 6.908` (returning normally for positive
amplitudes). -/
theorem claimC8_legacy_amp (v amp : ℝ) (h : 0 < amp) :
    slider_to_amp v = slider_to_amp_spec v ∧
      amp_to_slider amp = .ok (Real.log (amp / 1e-3) / 6.908) := by
  constructor
  · rfl
  · have hpos : (0 : ℝ) < amp / 1e-3 := by positivity
    have h0 : ¬ amp / 1e-3 ≤ 0 := not_le.mpr hpos
    simp [amp_to_slider, mathLog, if_neg h0, Except.map]

/-- Witness for C8 at `v = 1`, `amp = 1`. -/
theorem claimC8_witness :
    (0 : ℝ) < 1 ∧
      (slider_to_amp 1 = slider_to_amp_spec 1 ∧
        amp_to_slider 1 = .ok (Real.log ((1 : ℝ) / 1e-3) / 6.908)) :=
  ⟨by norm_num, claimC8_legacy_amp 1 1 (by norm_num)⟩

/-- Claim C9: after either sweep returns, the oscillator is left not
streaming — the stream handle is released even when the oscillator was
streaming when the sweep was invoked; only wave type and frequency are
restored to their pre-sweep values, never the streaming status. -/
theorem claimC9_stream_released (s : Oscillator) (n : ℕ) (hn : 20 ≤ n) :
    (octave_walk n s).map Prod.fst
        = some ⟨s.wave_type, s.amplitude, s.frequency, false⟩ ∧
      (octave_walk_thirds n s).map Prod.fst
        = some ⟨s.wave_type, s.amplitude, s.frequency, false⟩ := by
  constructor
  · rw [octave_walk_run n (by omega) s]
    rfl
  · rw [octave_walk_thirds_run n hn s]
    rfl

/-- Witness for C9 at a concrete streaming oscillator. -/
theorem claimC9_witness :
    20 ≤ 20 ∧
      ((octave_walk 20 ⟨"white_noise", 0.7, 1000, true⟩).map Prod.fst
          = some ⟨"white_noise", 0.7, 1000, false⟩ ∧
        (octave_walk_thirds 20 ⟨"white_noise", 0.7, 1000, true⟩).map Prod.fst
          = some ⟨"white_noise", 0.7, 1000, false⟩) :=
  ⟨le_refl 20, claimC9_stream_released ⟨"white_noise", 0.7, 1000, true⟩ 20 (le_refl 20)⟩

/-- Claim C10: `amp_title_format` renders `"Volume: -0.0 dBFS"` for
every `amp > 0` whose dB value rounds to zero at one decimal — every
`amp` with `|20 * log10 amp| < 0.05`, including amplitudes strictly
greater than 1 whose rounded dBFS is positive zero. -/
theorem claimC10_neg_zero_band (showR : ℝ → String) (amp : ℝ) (h1 : 0 < amp)
    (h2 : |20 * Real.logb 10 amp| < 0.05) :
    amp_title_format showR amp = "Volume: -0.0 dBFS" := by
  rw [amp_title_format_pos showR amp h1, if_pos (round1_eq_zero h2)]

/-- Witness for C10 at `amp = 1`. -/
theorem claimC10_witness :
    (0 : ℝ) < 1 ∧ |20 * Real.logb 10 1| < 0.05 ∧
      amp_title_format (fun _ => "x") 1 = "Volume: -0.0 dBFS" := by
  have hb : |20 * Real.logb 10 1| < 0.05 := by
    rw [Real.logb_one]
    norm_num
  exact ⟨by norm_num, hb, claimC10_neg_zero_band (fun _ => "x") 1 (by norm_num) hb⟩

end BarOsc
